import Mathlib

/-!
Verification of the `blogicum` blog application (`blog/views.py`).

The Django views are shallowly embedded as pure Lean functions over an
explicit database state.  Querysets become lists; `timezone.now()` is a
`Nat` parameter; `get_object_or_404` becomes an `Option`-returning
lookup; HTTP responses become an inductive type.  Views that mutate the
database return the new database alongside the response.
-/

namespace Blogicum

/-- User record (framework auth model): only the fields the views read. -/
structure BlogUser where
  id : Nat
  username : String
  deriving Repr, DecidableEq

/-- Category entity: title, slug, description, is_published, created_at. -/
structure Category where
  id : Nat
  title : String
  slug : String
  description : String
  is_published : Bool
  created_at : Nat
  deriving Repr, DecidableEq

/-- Location entity: name, is_published, created_at. -/
structure Location where
  id : Nat
  name : String
  is_published : Bool
  created_at : Nat
  deriving Repr, DecidableEq

/-- Post entity: title, text, pub_date, author, category, location,
image, is_published, created_at.  Foreign keys are stored as ids;
`location` and `image` are nullable. -/
structure Post where
  id : Nat
  title : String
  text : String
  pub_date : Nat
  author : Nat
  category : Nat
  location : Option Nat
  image : Option String
  is_published : Bool
  created_at : Nat
  deriving Repr, DecidableEq

/-- Comment entity: text, author, post, created_at. -/
structure Comment where
  id : Nat
  text : String
  author : Nat
  post : Nat
  created_at : Nat
  deriving Repr, DecidableEq

/-- The database: one table per entity, plus the id the next saved
comment receives (the autoincrement primary-key counter). -/
structure DB where
  users : List BlogUser
  categories : List Category
  locations : List Location
  posts : List Post
  comments : List Comment
  nextCommentId : Nat
  deriving Repr, DecidableEq

/-- An HTTP request as the embedded views see it: the authenticated
user (none = anonymous), the HTTP method, the `page` GET parameter, and
the bound form data (none when `request.POST or None` is `None`). -/
structure CommentFormData where
  text : String
  deriving Repr, DecidableEq

/-- Data submitted through `PostForm`.
Modelled from the spec: `forms.py` is not part of the sources; the spec
says posts are created/updated via user-submitted forms over the Post
fields. -/
structure PostFormData where
  title : String
  text : String
  pub_date : Nat
  category : Nat
  location : Option Nat
  image : Option String
  deriving Repr, DecidableEq

structure HttpRequest where
  user : Option BlogUser
  method : String
  pageParam : Option String
  commentData : Option CommentFormData
  postData : Option PostFormData
  deriving Repr, DecidableEq

/-- The primary key of `request.user` (Django model equality compares
primary keys), none for the anonymous user. -/
def requestUserId (req : HttpRequest) : Option Nat :=
  req.user.map fun u => u.id

/-- A paginator page as placed in the template context: the full
queryset held by the paginator, the validated page number, and the
slice of objects on that page. -/
structure PostWithCount where
  post : Post
  comment_count : Nat
  deriving Repr, DecidableEq

structure PageObj where
  object_list : List PostWithCount
  number : Nat
  items : List PostWithCount
  deriving Repr, DecidableEq

/-- The responses the embedded views produce. -/
inductive HResp where
  | notFound
  | methodNotAllowed
  | redirectLogin
  | redirectPostDetail (id : Nat)
  | redirectProfile (username : String)
  | renderDetail (post : Post) (comments : List Comment)
  | renderCategory (category : Category) (page : PageObj)
  | renderProfilePage (user : BlogUser) (page : PageObj)
  | renderCreateForm (formInstance : Option Post)
  | renderCommentForm (comment : Comment)
  deriving Repr, DecidableEq

/-- Primary-key lookup on the posts table, as used by
`get_object_or_404(Post, id=post_id)`: first row whose id matches. -/
def findPostById (l : List Post) (i : Nat) : Option Post :=
  l.find? fun p => p.id == i

/-- Lookup of `category__is_published` through the foreign key: the
related category row's flag (false when the row is absent). -/
def categoryIsPublished (db : DB) (cid : Nat) : Bool :=
  match db.categories.find? (fun c => c.id == cid) with
  | some c => c.is_published
  | none => false

/-- The published filter of the views:
`is_published=True, category__is_published=True, pub_date__lte=timezone.now()`. -/
def publishedFilter (db : DB) (now : Nat) (p : Post) : Bool :=
  p.is_published && categoryIsPublished db p.category && decide (p.pub_date ≤ now)

/-- The related manager `post.comments.all()`: comments whose `post` foreign key is this post. -/
def commentsOf (db : DB) (post_id : Nat) : List Comment :=
  db.comments.filter fun c => c.post == post_id

/-- The comment-count aggregate for one post. -/
def commentCountOf (db : DB) (post_id : Nat) : Nat :=
  (commentsOf db post_id).length

/-- The annotate step of `get_posts_with_comment_count`. -/
def withCount (db : DB) (p : Post) : PostWithCount :=
  ⟨p, commentCountOf db p.id⟩

/-- Comparison for `Post._meta.ordering`.
Modelled from the spec: `models.py` is not part of the sources; the
posts' default ordering is modelled as newest `pub_date` first, the
ordering the listing pages of such a blog present. -/
def postOrder (a b : PostWithCount) : Prop :=
  b.post.pub_date ≤ a.post.pub_date

instance : DecidableRel postOrder := fun _ _ => Nat.decLe _ _

/-- The helper `get_posts_with_comment_count(queryset, filter_published)`:
optionally apply the published filter, annotate each post with its
comment count, and order by `Post._meta.ordering`. -/
def get_posts_with_comment_count (db : DB) (now : Nat)
    (queryset : List Post) (filter_published : Bool) : List PostWithCount :=
  let qs := if filter_published then queryset.filter (publishedFilter db now) else queryset
  (qs.map (withCount db)).insertionSort postOrder

/-- The view `post_detail(request, id)`: fetch the post by id from the full
table (404 when absent); for a requester who is not the author, fetch
it again through the published filter (404 when it does not pass);
render the post with its comments. -/
def post_detail (db : DB) (now : Nat) (req : HttpRequest) (id : Nat) : HResp :=
  match findPostById db.posts id with
  | none => .notFound
  | some post =>
    if requestUserId req ≠ some post.author then
      match findPostById (db.posts.filter (publishedFilter db now)) id with
      | none => .notFound
      | some post2 => .renderDetail post2 (commentsOf db id)
    else
      .renderDetail post (commentsOf db id)

/-- The numeric value of a decimal digit character, none otherwise. -/
def digitVal (c : Char) : Option Nat :=
  if c == '0' then some 0 else if c == '1' then some 1
  else if c == '2' then some 2 else if c == '3' then some 3
  else if c == '4' then some 4 else if c == '5' then some 5
  else if c == '6' then some 6 else if c == '7' then some 7
  else if c == '8' then some 8 else if c == '9' then some 9
  else none

def digitsLoop (acc : Nat) : List Char → Option Nat
  | [] => some acc
  | c :: t =>
    match digitVal c with
    | some d => digitsLoop (acc * 10 + d) t
    | none => none

/-- A non-empty run of decimal digits read as a number. -/
def parseNatDigits (cs : List Char) : Option Nat :=
  match cs with
  | [] => none
  | _ :: _ => digitsLoop 0 cs

/-- Python's `int` applied to the `page` GET
parameter: an optional sign followed by digits, anything else fails. -/
def pythonToInt (s : String) : Option Int :=
  match s.data with
  | [] => none
  | c :: rest =>
    if c == '-' then (parseNatDigits rest).map fun n => -(n : Int)
    else if c == '+' then (parseNatDigits rest).map fun n => (n : Int)
    else (parseNatDigits (c :: rest)).map fun n => (n : Int)

/-- The page count `Paginator.num_pages` with the default `allow_empty_first_page`:
`ceil(max(1, count) / per_page)`. -/
def numPages (count per_page : Nat) : Nat :=
  (max count 1 + per_page - 1) / per_page

/-- The check `Paginator.validate_number` on an integer: below 1 or above
`num_pages` raises `EmptyPage`, which `get_page` turns into the last
page. -/
def clampPage (np : Nat) (n : Int) : Nat :=
  if n < 1 then np else if n > (np : Int) then np else n.toNat

/-- The lookup `Paginator.get_page(number)`: a missing or non-integer parameter
gives page 1; a parameter below 1 or above `num_pages` gives the last
page; otherwise the parameter itself. -/
def getPageNumber (count per_page : Nat) (param : Option String) : Nat :=
  match param.bind pythonToInt with
  | none => 1
  | some n => clampPage (numPages count per_page) n

/-- The helper `get_page_obj(queryset, request, per_page)`: paginate the queryset
and return the page addressed by `request.GET.get('page')`. -/
def get_page_obj (queryset : List PostWithCount) (req : HttpRequest)
    (per_page : Nat) : PageObj :=
  let n := getPageNumber queryset.length per_page req.pageParam
  ⟨queryset, n, (queryset.drop ((n - 1) * per_page)).take per_page⟩

/-- The view `category_posts(request, category_slug)`: fetch the category by
slug requiring `is_published=True` (404 otherwise), then list its
posts through the published filter, paginated. -/
def category_posts (db : DB) (now : Nat) (req : HttpRequest)
    (category_slug : String) : HResp :=
  match db.categories.find? (fun c => c.slug == category_slug && c.is_published) with
  | none => .notFound
  | some category =>
    let post_list := db.posts.filter fun p => p.category == category.id
    let annotated := get_posts_with_comment_count db now post_list true
    .renderCategory category (get_page_obj annotated req 10)

/-- The view `profile(request, username)`: fetch the user by username (404 when
absent); list that user's posts, applying the published filter exactly
when the requester is not the profile owner. -/
def profile (db : DB) (now : Nat) (req : HttpRequest) (username : String) : HResp :=
  match db.users.find? (fun u => u.username == username) with
  | none => .notFound
  | some u =>
    let post_list := db.posts.filter fun p => p.author == u.id
    let filter_published := !(requestUserId req == some u.id)
    let lst := get_posts_with_comment_count db now post_list filter_published
    .renderProfilePage u (get_page_obj lst req 10)

/-- Validity of a bound `CommentForm`.
Modelled from the spec: `forms.py` is not part of the sources; a
comment form is valid when it is bound (`request.POST or None` not
`None`) and its required `text` field is non-empty. -/
def commentFormIsValid (d : Option CommentFormData) : Bool :=
  match d with
  | none => false
  | some f => !(f.text == "")

/-- Validity of a bound `PostForm`.
Modelled from the spec: `forms.py` is not part of the sources; a post
form is valid when it is bound and its required text fields are
non-empty. -/
def postFormIsValid (d : Option PostFormData) : Bool :=
  match d with
  | none => false
  | some f => !(f.title == "") && !(f.text == "")

/-- Saving a `PostForm` bound with `instance=post`: the
form's fields overwrite the instance's. -/
def applyPostForm (f : PostFormData) (p : Post) : Post :=
  { p with title := f.title, text := f.text, pub_date := f.pub_date,
           category := f.category, location := f.location, image := f.image }

/-- An ORM UPDATE of one post row, keyed by primary key. -/
def updatePost (db : DB) (p : Post) : DB :=
  { db with posts := db.posts.map fun q => if q.id == p.id then p else q }

/-- An ORM UPDATE of one comment row, keyed by primary key. -/
def updateComment (db : DB) (c : Comment) : DB :=
  { db with comments := db.comments.map fun d => if d.id == c.id then c else d }

/-- Deletion of a post row via `post.delete()`; the comments pointing at it
go with it (cascading foreign key, the modelled `models.py` default). -/
def deletePost (db : DB) (post_id : Nat) : DB :=
  { db with posts := db.posts.filter fun p => !(p.id == post_id),
            comments := db.comments.filter fun c => !(c.post == post_id) }

/-- Deletion of a comment row via `comment.delete()`. -/
def deleteComment (db : DB) (comment_id : Nat) : DB :=
  { db with comments := db.comments.filter fun c => !(c.id == comment_id) }

/-- The view `post_edit(request, post_id)` (login required): 404 when the post
is absent; redirect to the post's detail page when the requester is
not the author; otherwise save the bound form when valid (and
redirect) or re-render the form. -/
def post_edit (db : DB) (req : HttpRequest) (post_id : Nat) : HResp × DB :=
  match req.user with
  | none => (.redirectLogin, db)
  | some _u =>
    match findPostById db.posts post_id with
    | none => (.notFound, db)
    | some post =>
      if some post.author ≠ requestUserId req then
        (.redirectPostDetail post_id, db)
      else if postFormIsValid req.postData then
        match req.postData with
        | some f => (.redirectPostDetail post_id, updatePost db (applyPostForm f post))
        | none => (.renderCreateForm (some post), db)
      else
        (.renderCreateForm (some post), db)

/-- The view `post_delete(request, post_id)` (login required, GET/POST only):
404 when the post is absent; redirect to the detail page when the
requester is not the author; on POST delete the post and redirect to
the profile; on GET render the confirmation form. -/
def post_delete (db : DB) (req : HttpRequest) (post_id : Nat) : HResp × DB :=
  match req.user with
  | none => (.redirectLogin, db)
  | some u =>
    if !(req.method == "GET" || req.method == "POST") then
      (.methodNotAllowed, db)
    else
      match findPostById db.posts post_id with
      | none => (.notFound, db)
      | some post =>
        if some post.author ≠ requestUserId req then
          (.redirectPostDetail post_id, db)
        else if req.method == "POST" then
          (.redirectProfile u.username, deletePost db post_id)
        else
          (.renderCreateForm (some post), db)

/-- The view `add_comment(request, post_id)` (login required): 404 when the
post is absent; when the bound comment form is valid save a new
comment on this post by the requester; redirect to the post's detail
page in the valid and the invalid case alike. -/
def add_comment (db : DB) (now : Nat) (req : HttpRequest) (post_id : Nat) :
    HResp × DB :=
  match req.user with
  | none => (.redirectLogin, db)
  | some u =>
    match findPostById db.posts post_id with
    | none => (.notFound, db)
    | some _post =>
      match req.commentData with
      | some d =>
        if commentFormIsValid (some d) then
          (.redirectPostDetail post_id,
           { db with
               comments := db.comments ++ [⟨db.nextCommentId, d.text, u.id, post_id, now⟩],
               nextCommentId := db.nextCommentId + 1 })
        else
          (.redirectPostDetail post_id, db)
      | none => (.redirectPostDetail post_id, db)

/-- The lookup of a comment by id and post id, as used by
`get_object_or_404` in the comment views. -/
def findComment (db : DB) (post_id comment_id : Nat) : Option Comment :=
  db.comments.find? fun c => c.id == comment_id && c.post == post_id

/-- The view `edit_comment(request, post_id, comment_id)` (login required): 404
when no such comment sits on that post; redirect to the post's detail
page when the requester is not the comment's author; otherwise save
the bound form when valid (and redirect) or render the form. -/
def edit_comment (db : DB) (req : HttpRequest) (post_id comment_id : Nat) :
    HResp × DB :=
  match req.user with
  | none => (.redirectLogin, db)
  | some _u =>
    match findComment db post_id comment_id with
    | none => (.notFound, db)
    | some comment =>
      if some comment.author ≠ requestUserId req then
        (.redirectPostDetail post_id, db)
      else
        match req.commentData with
        | some d =>
          if commentFormIsValid (some d) then
            (.redirectPostDetail post_id, updateComment db { comment with text := d.text })
          else
            (.renderCommentForm comment, db)
        | none => (.renderCommentForm comment, db)

/-- The view `delete_comment(request, post_id, comment_id)` (login required,
GET/POST only): 404 when no such comment sits on that post; redirect
to the post's detail page when the requester is not the comment's
author; on POST delete the comment and redirect to the detail page; on
GET render the confirmation page. -/
def delete_comment (db : DB) (req : HttpRequest) (post_id comment_id : Nat) :
    HResp × DB :=
  match req.user with
  | none => (.redirectLogin, db)
  | some _u =>
    if !(req.method == "GET" || req.method == "POST") then
      (.methodNotAllowed, db)
    else
      match findComment db post_id comment_id with
      | none => (.notFound, db)
      | some comment =>
        if some comment.author ≠ requestUserId req then
          (.redirectPostDetail post_id, db)
        else if req.method == "POST" then
          (.redirectPostDetail post_id, deleteComment db comment.id)
        else
          (.renderCommentForm comment, db)

/-! Sample rows used by the concrete witnesses. -/

def user1 : BlogUser := ⟨1, "alice"⟩

def user2 : BlogUser := ⟨2, "bob"⟩

def catPub : Category := ⟨1, "General", "general", "all sorts", true, 0⟩

def catHidden : Category := ⟨2, "Hidden", "hidden", "unpublished", false, 0⟩

def postPub : Post := ⟨10, "hello", "body", 5, 1, 1, none, none, true, 0⟩

def postDraft : Post := ⟨11, "draft", "body", 5, 1, 1, none, none, false, 0⟩

def comment1 : Comment := ⟨100, "nice", 2, 10, 6⟩

def comment2 : Comment := ⟨101, "thanks", 1, 10, 7⟩

def db1 : DB :=
  ⟨[user1, user2], [catPub, catHidden], [], [postPub, postDraft],
   [comment1, comment2], 102⟩

def reqAnon : HttpRequest := ⟨none, "GET", none, none, none⟩

def reqBobGet : HttpRequest := ⟨some user2, "GET", none, none, none⟩

def reqAliceGet : HttpRequest := ⟨some user1, "GET", none, none, none⟩

def reqBobDelete : HttpRequest := ⟨some user2, "DELETE", none, none, none⟩

def reqBobPatch : HttpRequest := ⟨some user2, "PATCH", none, none, none⟩

def reqBobComment : HttpRequest := ⟨some user2, "POST", none, some ⟨"hi there"⟩, none⟩

def reqPageAbc : HttpRequest := ⟨none, "GET", some "abc", none, none⟩

/-! General lemmas about the ORM lookups. -/

theorem find?_eq_some_of_unique {α : Type} {l : List α} {f : α → Bool} {a : α}
    (ha : a ∈ l) (hf : f a = true)
    (huniq : ∀ b ∈ l, f b = true → b = a) : l.find? f = some a := by
  induction l with
  | nil => cases ha
  | cons x t ih =>
    rcases List.mem_cons.mp ha with rfl | hmem
    · exact List.find?_cons_of_pos _ hf
    · by_cases hx : f x = true
      · have hxa := huniq x (List.mem_cons_self _ _) hx
        subst hxa
        exact List.find?_cons_of_pos _ hf
      · rw [List.find?_cons_of_neg _ (by simpa using hx)]
        exact ih hmem fun b hb hfb => huniq b (List.mem_cons_of_mem _ hb) hfb

theorem findPostById_filter (l : List Post) (g : Post → Bool) (p : Post)
    (hmem : p ∈ l)
    (huniq : ∀ q ∈ l, q.id = p.id → q = p) :
    findPostById (l.filter g) p.id = if g p then some p else none := by
  by_cases hg : g p = true
  · rw [if_pos hg]
    exact find?_eq_some_of_unique (List.mem_filter.mpr ⟨hmem, hg⟩) (by simp)
      fun q hq hqi => huniq q (List.mem_filter.mp hq).1 (by simpa using hqi)
  · rw [if_neg hg]
    apply List.find?_eq_none.mpr
    intro q hq hqi
    have h1 := (List.mem_filter.mp hq).1
    have h2 := (List.mem_filter.mp hq).2
    have hq2 : q = p := huniq q h1 (by simpa using hqi)
    subst hq2
    exact hg h2

theorem publishedFilter_eq_true_iff (db : DB) (now : Nat) (p : Post) :
    publishedFilter db now p = true ↔
      (p.is_published = true ∧ categoryIsPublished db p.category = true ∧
        p.pub_date ≤ now) := by
  simp [publishedFilter, Bool.and_eq_true, and_assoc]

theorem gpwcc_true_perm (db : DB) (now : Nat) (qs : List Post) :
    ((get_posts_with_comment_count db now qs true).map fun x => x.post).Perm
      (qs.filter (publishedFilter db now)) := by
  unfold get_posts_with_comment_count
  have h := (List.perm_insertionSort postOrder
    ((qs.filter (publishedFilter db now)).map (withCount db))).map
      fun x : PostWithCount => x.post
  rw [List.map_map] at h
  have hcomp : ((fun x : PostWithCount => x.post) ∘ withCount db) = id := by
    funext p
    rfl
  rw [hcomp, List.map_id] at h
  simpa using h

theorem gpwcc_false_perm (db : DB) (now : Nat) (qs : List Post) :
    ((get_posts_with_comment_count db now qs false).map fun x => x.post).Perm qs := by
  unfold get_posts_with_comment_count
  have h := (List.perm_insertionSort postOrder (qs.map (withCount db))).map
    fun x : PostWithCount => x.post
  rw [List.map_map] at h
  have hcomp : ((fun x : PostWithCount => x.post) ∘ withCount db) = id := by
    funext p
    rfl
  rw [hcomp, List.map_id] at h
  simpa using h

/-- C1: for every request to `post_detail` by a user who is not the
post's author, the post is returned iff it has `is_published = true`,
its category has `is_published = true` and its `pub_date` is at most
the current time; when any conjunct fails the view responds 404. -/
theorem post_detail_public_visibility_C1 (db : DB) (now : Nat)
    (req : HttpRequest) (p : Post)
    (hfind : findPostById db.posts p.id = some p)
    (huniq : ∀ q ∈ db.posts, q.id = p.id → q = p)
    (hauthor : requestUserId req ≠ some p.author) :
    (post_detail db now req p.id = .renderDetail p (commentsOf db p.id) ↔
      (p.is_published = true ∧ categoryIsPublished db p.category = true ∧
        p.pub_date ≤ now))
    ∧ (¬(p.is_published = true ∧ categoryIsPublished db p.category = true ∧
          p.pub_date ≤ now) →
        post_detail db now req p.id = .notFound) := by
  have hmem := List.mem_of_find?_eq_some hfind
  have hfilter := findPostById_filter db.posts (publishedFilter db now) p hmem huniq
  have hiff := publishedFilter_eq_true_iff db now p
  by_cases hp : publishedFilter db now p = true
  · have hres : post_detail db now req p.id = .renderDetail p (commentsOf db p.id) := by
      unfold post_detail
      rw [hfind]
      simp only [if_pos hauthor, hfilter, if_pos hp]
    constructor
    · rw [hres]
      exact ⟨fun _ => hiff.mp hp, fun _ => rfl⟩
    · intro hcon
      exact absurd (hiff.mp hp) hcon
  · have hres : post_detail db now req p.id = .notFound := by
      unfold post_detail
      rw [hfind]
      simp only [if_pos hauthor, hfilter, if_neg hp]
    constructor
    · rw [hres]
      constructor
      · intro h
        cases h
      · intro hsat
        exact absurd (hiff.mpr hsat) hp
    · intro _
      exact hres

/-- Concrete run of the C1 theorem: in `db1` the anonymous user
requesting the published post 10 gets it rendered. -/
theorem post_detail_public_visibility_C1_witness :
    post_detail db1 7 reqAnon 10 = .renderDetail postPub [comment1, comment2] := by
  have h := post_detail_public_visibility_C1 db1 7 reqAnon postPub (by decide)
    (by decide) (by decide)
  exact h.1.mpr (by decide)

/-- C2: an existing post's author always sees it in `post_detail`,
whatever its publication state, and `profile` viewed by its owner
lists all of the owner's posts with the publication filter skipped. -/
theorem author_and_owner_see_all_C2 (db : DB) (now : Nat) (req : HttpRequest) :
    (∀ p : Post, findPostById db.posts p.id = some p →
      requestUserId req = some p.author →
      post_detail db now req p.id = .renderDetail p (commentsOf db p.id))
    ∧ (∀ u : BlogUser, ∀ username : String,
      db.users.find? (fun v => v.username == username) = some u →
      requestUserId req = some u.id →
      ∃ page : PageObj, profile db now req username = .renderProfilePage u page ∧
        (page.object_list.map fun x => x.post).Perm
          (db.posts.filter fun p => p.author == u.id)) := by
  constructor
  · intro p hfind hauth
    unfold post_detail
    rw [hfind]
    simp only [if_neg (by simp [hauth] : ¬requestUserId req ≠ some p.author)]
  · intro u username hu hown
    refine ⟨get_page_obj (get_posts_with_comment_count db now
      (db.posts.filter fun p => p.author == u.id) false) req 10, ?_, ?_⟩
    · unfold profile
      rw [hu]
      have hflag : (!(requestUserId req == some u.id)) = false := by
        rw [hown]
        simp
      simp only [hflag]
    · exact gpwcc_false_perm db now (db.posts.filter fun p => p.author == u.id)

/-- Concrete run of the C2 theorem: in `db1` the author alice sees her
own unpublished post 11. -/
theorem author_and_owner_see_all_C2_witness :
    post_detail db1 7 reqAliceGet 11 = .renderDetail postDraft [] :=
  (author_and_owner_see_all_C2 db1 7 reqAliceGet).1 postDraft (by decide) (by decide)

/-- C3: with `filter_published=True`, `get_posts_with_comment_count`
returns exactly the posts of the input passing the published filter;
with `filter_published=False` it returns every post of the input. -/
theorem gpwcc_filter_exactness_C3 (db : DB) (now : Nat) (qs : List Post) :
    ((get_posts_with_comment_count db now qs true).map fun x => x.post).Perm
      (qs.filter (publishedFilter db now))
    ∧ ((get_posts_with_comment_count db now qs false).map fun x => x.post).Perm qs
    ∧ (∀ p : Post,
        (∃ x, x ∈ get_posts_with_comment_count db now qs true ∧ x.post = p) ↔
        (p ∈ qs ∧ p.is_published = true ∧ categoryIsPublished db p.category = true ∧
          p.pub_date ≤ now)) := by
  refine ⟨gpwcc_true_perm db now qs, gpwcc_false_perm db now qs, ?_⟩
  intro p
  have hmm : p ∈ (get_posts_with_comment_count db now qs true).map (fun x => x.post) ↔
      p ∈ qs.filter (publishedFilter db now) :=
    (gpwcc_true_perm db now qs).mem_iff
  rw [List.mem_map] at hmm
  rw [List.mem_filter] at hmm
  rw [publishedFilter_eq_true_iff] at hmm
  exact hmm

/-- Concrete run of the C3 theorem: the published post 10 appears in
the output of the filtered call over `db1`. -/
theorem gpwcc_filter_exactness_C3_witness :
    ∃ x, x ∈ get_posts_with_comment_count db1 7 [postPub, postDraft] true ∧
      x.post = postPub :=
  ((gpwcc_filter_exactness_C3 db1 7 [postPub, postDraft]).2.2 postPub).mpr (by decide)

/-- C7: every element `get_posts_with_comment_count` returns carries a
`comment_count` equal to the number of comments whose `post` foreign
key is that post, read from the current comment table. -/
theorem comment_count_is_current_C7 (db : DB) (now : Nat) (qs : List Post)
    (fp : Bool) :
    ∀ x ∈ get_posts_with_comment_count db now qs fp,
      x.comment_count = (db.comments.filter fun c => c.post == x.post.id).length := by
  intro x hx
  unfold get_posts_with_comment_count at hx
  rw [List.mem_insertionSort] at hx
  have hx2 : x ∈ (if fp then qs.filter (publishedFilter db now) else qs).map
      (withCount db) := hx
  obtain ⟨p, _, rfl⟩ := List.mem_map.mp hx2
  rfl

/-- Concrete run of the C7 theorem: post 10 in `db1` carries count 1. -/
theorem comment_count_is_current_C7_witness :
    (withCount db1 postPub).comment_count =
      (db1.comments.filter fun c => c.post == (withCount db1 postPub).post.id).length :=
  comment_count_is_current_C7 db1 7 [postPub] true (withCount db1 postPub) (by decide)

/-- C4 counterexample: bob is authenticated, alice's post 10 exists
and bob is not its author, yet a DELETE-method call to `post_delete`
answers 405 method-not-allowed instead of redirecting to the post's
detail page. -/
theorem post_ownership_counterexample_C4 :
    reqBobDelete.user = some user2 ∧
    findPostById db1.posts 10 = some postPub ∧
    postPub.author ≠ user2.id ∧
    post_delete db1 reqBobDelete 10 = (.methodNotAllowed, db1) ∧
    post_delete db1 reqBobDelete 10 ≠ (.redirectPostDetail 10, db1) := by
  decide

/-- C4 (amended): for an authenticated requester who is not the
author of an existing post, `post_edit` redirects to the post's detail
page leaving the database unchanged, and so does `post_delete` for the
GET and POST methods it accepts (it rejects every other method before
the ownership check). -/
theorem post_ownership_guard_C4 (db : DB) (req : HttpRequest)
    (post_id : Nat) (p : Post) (u : BlogUser)
    (hu : req.user = some u)
    (hp : findPostById db.posts post_id = some p)
    (hne : p.author ≠ u.id) :
    post_edit db req post_id = (.redirectPostDetail post_id, db)
    ∧ (req.method = "GET" ∨ req.method = "POST" →
        post_delete db req post_id = (.redirectPostDetail post_id, db)) := by
  have hru : requestUserId req = some u.id := by
    rw [requestUserId, hu]
    rfl
  have hcond : some p.author ≠ requestUserId req := by
    rw [hru]
    intro h
    exact hne (Option.some.inj h)
  constructor
  · unfold post_edit
    rw [hu]
    simp only [hp, if_pos hcond]
  · intro hm
    unfold post_delete
    rw [hu]
    have hmeth : (!(req.method == "GET" || req.method == "POST")) = false := by
      rcases hm with h | h <;> simp [h]
    simp only [hmeth, Bool.false_eq_true, if_false, hp, if_pos hcond]

/-- Concrete run of the amended C4 theorem: bob's GET to `post_edit`
and `post_delete` on alice's post 10 redirects with `db1` unchanged. -/
theorem post_ownership_guard_C4_witness :
    post_edit db1 reqBobGet 10 = (.redirectPostDetail 10, db1)
    ∧ post_delete db1 reqBobGet 10 = (.redirectPostDetail 10, db1) := by
  have h := post_ownership_guard_C4 db1 reqBobGet 10 postPub user2
    (by decide) (by decide) (by decide)
  exact ⟨h.1, h.2 (Or.inl rfl)⟩

/-- C5 counterexample: bob is authenticated and no comment 999 exists
on post 10, yet a PATCH-method call to `delete_comment` answers 405
method-not-allowed instead of the 404 the claim requires. -/
theorem comment_guard_counterexample_C5 :
    reqBobPatch.user = some user2 ∧
    findComment db1 10 999 = none ∧
    delete_comment db1 reqBobPatch 10 999 = (.methodNotAllowed, db1) ∧
    delete_comment db1 reqBobPatch 10 999 ≠ (.notFound, db1) := by
  decide

/-- C5 (amended): for an authenticated requester, `edit_comment`
responds 404 when no comment with the given id sits on the given post
and redirects to the post's detail page, database unchanged, when the
comment exists but the requester is not its author; `delete_comment`
behaves the same for the GET and POST methods it accepts (it rejects
every other method first). -/
theorem comment_ownership_guard_C5 (db : DB) (req : HttpRequest)
    (post_id comment_id : Nat) (u : BlogUser)
    (hu : req.user = some u) :
    (findComment db post_id comment_id = none →
      edit_comment db req post_id comment_id = (.notFound, db)
      ∧ (req.method = "GET" ∨ req.method = "POST" →
          delete_comment db req post_id comment_id = (.notFound, db)))
    ∧ (∀ c : Comment, findComment db post_id comment_id = some c →
        c.author ≠ u.id →
        edit_comment db req post_id comment_id = (.redirectPostDetail post_id, db)
        ∧ (req.method = "GET" ∨ req.method = "POST" →
            delete_comment db req post_id comment_id =
              (.redirectPostDetail post_id, db))) := by
  have hru : requestUserId req = some u.id := by
    rw [requestUserId, hu]
    rfl
  constructor
  · intro hnone
    constructor
    · unfold edit_comment
      rw [hu]
      simp only [hnone]
    · intro hm
      unfold delete_comment
      rw [hu]
      have hmeth : (!(req.method == "GET" || req.method == "POST")) = false := by
        rcases hm with h | h <;> simp [h]
      simp only [hmeth, Bool.false_eq_true, if_false, hnone]
  · intro c hc hne
    have hcond : some c.author ≠ requestUserId req := by
      rw [hru]
      intro h
      exact hne (Option.some.inj h)
    constructor
    · unfold edit_comment
      rw [hu]
      simp only [hc, if_pos hcond]
    · intro hm
      unfold delete_comment
      rw [hu]
      have hmeth : (!(req.method == "GET" || req.method == "POST")) = false := by
        rcases hm with h | h <;> simp [h]
      simp only [hmeth, Bool.false_eq_true, if_false, hc, if_pos hcond]

/-- Concrete run of the amended C5 theorem: alice's GET to
`edit_comment` on bob's comment 100 redirects with `db1` unchanged. -/
theorem comment_ownership_guard_C5_witness :
    edit_comment db1 reqAliceGet 10 100 = (.redirectPostDetail 10, db1) :=
  ((comment_ownership_guard_C5 db1 reqAliceGet 10 100 user1 (by decide)).2
    comment1 (by decide) (by decide)).1

/-- C6: `category_posts` responds 404 exactly when no published
category carries the requested slug; otherwise it lists exactly the
posts of that category that are published with a non-future
`pub_date` (category publication already guaranteed). -/
theorem category_posts_spec_C6 (db : DB) (now : Nat) (req : HttpRequest)
    (slug : String) :
    (category_posts db now req slug = .notFound ↔
      ∀ c ∈ db.categories, ¬(c.slug = slug ∧ c.is_published = true))
    ∧ (∀ c : Category, c ∈ db.categories → c.slug = slug →
        c.is_published = true →
        (∀ d ∈ db.categories, d.slug = slug → d = c) →
        (∀ d ∈ db.categories, d.id = c.id → d = c) →
        ∃ page : PageObj, category_posts db now req slug = .renderCategory c page ∧
          ∀ p : Post, ((∃ x, x ∈ page.object_list ∧ x.post = p) ↔
            (p ∈ db.posts ∧ p.category = c.id ∧ p.is_published = true ∧
              p.pub_date ≤ now))) := by
  constructor
  · cases hfind : db.categories.find? (fun c => c.slug == slug && c.is_published) with
    | none =>
      have hres : category_posts db now req slug = .notFound := by
        unfold category_posts
        rw [hfind]
      have hall := List.find?_eq_none.mp hfind
      constructor
      · intro _ c hc hcon
        exact hall c hc (by simp [hcon.1, hcon.2])
      · intro _
        exact hres
    | some c =>
      have hpred := List.find?_some hfind
      have hcmem := List.mem_of_find?_eq_some hfind
      have hres : category_posts db now req slug =
          .renderCategory c (get_page_obj (get_posts_with_comment_count db now
            (db.posts.filter fun p => p.category == c.id) true) req 10) := by
        unfold category_posts
        rw [hfind]
      constructor
      · intro h
        rw [hres] at h
        cases h
      · intro hall
        exfalso
        have hconj : c.slug = slug ∧ c.is_published = true := by simpa using hpred
        exact hall c hcmem hconj
  · intro c hcmem hslug hpub huslug huid
    have hfind : db.categories.find? (fun d => d.slug == slug && d.is_published) =
        some c :=
      find?_eq_some_of_unique hcmem (by simp [hslug, hpub])
        fun b hb hfb => by
          have hconj : b.slug = slug ∧ b.is_published = true := by simpa using hfb
          exact huslug b hb hconj.1
    refine ⟨get_page_obj (get_posts_with_comment_count db now
      (db.posts.filter fun q => q.category == c.id) true) req 10, ?_, ?_⟩
    · unfold category_posts
      rw [hfind]
    · intro p
      have hmm : p ∈ (get_posts_with_comment_count db now
          (db.posts.filter fun q => q.category == c.id) true).map (fun x => x.post) ↔
          p ∈ (db.posts.filter fun q => q.category == c.id).filter
            (publishedFilter db now) :=
        (gpwcc_true_perm db now _).mem_iff
      rw [List.mem_map, List.mem_filter, List.mem_filter] at hmm
      constructor
      · intro h
        obtain ⟨⟨hp1, hp2⟩, hp3⟩ := hmm.mp h
        have hcateq : p.category = c.id := by simpa using hp2
        have h3 := (publishedFilter_eq_true_iff db now p).mp hp3
        exact ⟨hp1, hcateq, h3.1, h3.2.2⟩
      · rintro ⟨hp1, hp2, hp3, hp4⟩
        apply hmm.mpr
        refine ⟨⟨hp1, by simp [hp2]⟩, ?_⟩
        apply (publishedFilter_eq_true_iff db now p).mpr
        refine ⟨hp3, ?_, hp4⟩
        rw [hp2]
        unfold categoryIsPublished
        have hfc : db.categories.find? (fun d => d.id == c.id) = some c :=
          find?_eq_some_of_unique hcmem (by simp)
            fun b hb hfb => huid b hb (by simpa using hfb)
        rw [hfc]
        exact hpub

/-- Concrete run of the C6 theorem: slug `hidden` names an
unpublished category of `db1`, so `category_posts` responds 404. -/
theorem category_posts_spec_C6_witness :
    category_posts db1 7 reqAnon "hidden" = .notFound :=
  (category_posts_spec_C6 db1 7 reqAnon "hidden").1.mpr (by decide)

/-- C8: for the owner, `post_delete` and `delete_comment` delete only
on POST: a GET merely renders the confirmation page with the database
unchanged, and every method other than GET and POST is rejected with
method-not-allowed. -/
theorem delete_only_on_post_method_C8 (db : DB) (req : HttpRequest)
    (post_id comment_id : Nat) (p : Post) (c : Comment) (u : BlogUser)
    (hu : req.user = some u)
    (hp : findPostById db.posts post_id = some p) (hpo : p.author = u.id)
    (hc : findComment db post_id comment_id = some c) (hco : c.author = u.id) :
    (req.method = "GET" →
      post_delete db req post_id = (.renderCreateForm (some p), db)
      ∧ delete_comment db req post_id comment_id = (.renderCommentForm c, db))
    ∧ (req.method = "POST" →
      post_delete db req post_id = (.redirectProfile u.username, deletePost db post_id)
      ∧ p ∉ (deletePost db post_id).posts
      ∧ delete_comment db req post_id comment_id =
          (.redirectPostDetail post_id, deleteComment db c.id)
      ∧ c ∉ (deleteComment db c.id).comments)
    ∧ (req.method ≠ "GET" → req.method ≠ "POST" →
      post_delete db req post_id = (.methodNotAllowed, db)
      ∧ delete_comment db req post_id comment_id = (.methodNotAllowed, db)) := by
  have hru : requestUserId req = some u.id := by
    rw [requestUserId, hu]
    rfl
  have heqp : some p.author = requestUserId req := by
    rw [hru, hpo]
  have heqc : some c.author = requestUserId req := by
    rw [hru, hco]
  have hcondp : ¬(some p.author ≠ requestUserId req) := fun hcon => hcon heqp
  have hcondc : ¬(some c.author ≠ requestUserId req) := fun hcon => hcon heqc
  have hpid : (p.id == post_id) = true := by simpa using List.find?_some hp
  refine ⟨?_, ?_, ?_⟩
  · intro hmg
    have hg : (req.method == "GET") = true := by simp [hmg]
    have hnp : (req.method == "POST") = false := by simp [hmg]
    constructor
    · unfold post_delete
      rw [hu]
      simp [hp, hg, hnp, heqp]
    · unfold delete_comment
      rw [hu]
      simp [hc, hg, hnp, heqc]
  · intro hmp
    have hyp : (req.method == "POST") = true := by simp [hmp]
    refine ⟨?_, ?_, ?_, ?_⟩
    · unfold post_delete
      rw [hu]
      simp [hp, hyp, heqp]
    · intro hmem
      have hkeep := (List.mem_filter.mp hmem).2
      rw [hpid] at hkeep
      simp at hkeep
    · unfold delete_comment
      rw [hu]
      simp [hc, hyp, heqc]
    · intro hmem
      have hkeep := (List.mem_filter.mp hmem).2
      simp at hkeep
  · intro hm1 hm2
    have h1 : (req.method == "GET") = false := beq_eq_false_iff_ne.mpr hm1
    have h2 : (req.method == "POST") = false := beq_eq_false_iff_ne.mpr hm2
    constructor
    · unfold post_delete
      rw [hu]
      simp [h1, h2]
    · unfold delete_comment
      rw [hu]
      simp [h1, h2]

/-- Concrete run of the C8 theorem: alice's GET to the delete views on
her post 10 and comment 101 renders confirmations, `db1` unchanged. -/
theorem delete_only_on_post_method_C8_witness :
    post_delete db1 reqAliceGet 10 = (.renderCreateForm (some postPub), db1)
    ∧ delete_comment db1 reqAliceGet 10 101 = (.renderCommentForm comment2, db1) :=
  (delete_only_on_post_method_C8 db1 reqAliceGet 10 101 postPub comment2 user1
    (by decide) (by decide) (by decide) (by decide) (by decide)).1 rfl

/-- C9: `add_comment` on an existing post redirects to the post's
detail page whether the form is valid or not; an invalid form leaves
the database unchanged, a valid one appends exactly one comment whose
`post` is the addressed post and whose `author` is the requester. -/
theorem add_comment_spec_C9 (db : DB) (now : Nat) (req : HttpRequest)
    (post_id : Nat) (p : Post) (u : BlogUser)
    (hu : req.user = some u)
    (hp : findPostById db.posts post_id = some p) :
    (commentFormIsValid req.commentData = false →
      add_comment db now req post_id = (.redirectPostDetail post_id, db))
    ∧ (∀ d : CommentFormData, req.commentData = some d →
        commentFormIsValid (some d) = true →
        add_comment db now req post_id =
          (.redirectPostDetail post_id,
            { db with
                comments := db.comments ++ [⟨db.nextCommentId, d.text, u.id, post_id, now⟩],
                nextCommentId := db.nextCommentId + 1 })) := by
  constructor
  · intro hinvalid
    unfold add_comment
    rw [hu]
    cases hd : req.commentData with
    | none => simp only [hp, hd]
    | some d =>
      rw [hd] at hinvalid
      simp only [hp, hd, hinvalid, Bool.false_eq_true, if_false]
  · intro d hd hvalid
    unfold add_comment
    rw [hu]
    simp only [hp, hd, hvalid, if_true]

/-- Concrete run of the C9 theorem: bob's valid comment form on post
10 appends comment 102 and redirects to the detail page. -/
theorem add_comment_spec_C9_witness :
    add_comment db1 8 reqBobComment 10 =
      (.redirectPostDetail 10,
        { db1 with
            comments := db1.comments ++ [⟨102, "hi there", 2, 10, 8⟩],
            nextCommentId := 103 }) :=
  (add_comment_spec_C9 db1 8 reqBobComment 10 postPub user2
    (by decide) (by decide)).2 ⟨"hi there"⟩ rfl (by decide)

theorem one_le_numPages (count per_page : Nat) (hpp : 0 < per_page) :
    1 ≤ numPages count per_page := by
  unfold numPages
  rw [Nat.le_div_iff_mul_le hpp]
  omega

theorem clampPage_bounds (np : Nat) (n : Int) (hnp : 1 ≤ np) :
    1 ≤ clampPage np n ∧ clampPage np n ≤ np := by
  unfold clampPage
  by_cases h1 : n < 1
  · rw [if_pos h1]
    exact ⟨hnp, le_refl _⟩
  · rw [if_neg h1]
    by_cases h2 : n > (np : Int)
    · rw [if_pos h2]
      exact ⟨hnp, le_refl _⟩
    · rw [if_neg h2]
      constructor <;> omega

theorem clampPage_out (np : Nat) (n : Int) (h : n < 1 ∨ (np : Int) < n) :
    clampPage np n = np := by
  unfold clampPage
  rcases h with h1 | h2
  · rw [if_pos h1]
  · rw [if_neg (by omega : ¬n < 1), if_pos h2]

theorem getPageNumber_bounds (count per_page : Nat) (param : Option String)
    (hpp : 0 < per_page) :
    1 ≤ getPageNumber count per_page param
    ∧ getPageNumber count per_page param ≤ numPages count per_page := by
  have hnp := one_le_numPages count per_page hpp
  unfold getPageNumber
  cases hpb : param.bind pythonToInt with
  | none => exact ⟨le_refl 1, hnp⟩
  | some n => exact clampPage_bounds _ n hnp

/-- C10: `get_page_obj` with `per_page = 10` never fails: the returned
page holds at most 10 items and a number between 1 and `num_pages`; a
missing or non-integer `page` parameter yields page 1 and an
out-of-range one yields the last page. -/
theorem get_page_obj_safe_C10 (qs : List PostWithCount) (req : HttpRequest) :
    (get_page_obj qs req 10).items.length ≤ 10
    ∧ 1 ≤ (get_page_obj qs req 10).number
    ∧ (get_page_obj qs req 10).number ≤ numPages qs.length 10
    ∧ (req.pageParam = none → (get_page_obj qs req 10).number = 1)
    ∧ (∀ s : String, req.pageParam = some s → pythonToInt s = none →
        (get_page_obj qs req 10).number = 1)
    ∧ (∀ s : String, ∀ n : Int, req.pageParam = some s → pythonToInt s = some n →
        (n < 1 ∨ (numPages qs.length 10 : Int) < n) →
        (get_page_obj qs req 10).number = numPages qs.length 10) := by
  have hb := getPageNumber_bounds qs.length 10 req.pageParam (by omega)
  refine ⟨?_, hb.1, hb.2, ?_, ?_, ?_⟩
  · show ((qs.drop _).take 10).length ≤ 10
    rw [List.length_take]
    omega
  · intro hnone
    show getPageNumber qs.length 10 req.pageParam = 1
    rw [hnone]
    rfl
  · intro s hs hpi
    show getPageNumber qs.length 10 req.pageParam = 1
    rw [hs]
    simp [getPageNumber, hpi]
  · intro s n hs hpi hrange
    show getPageNumber qs.length 10 req.pageParam = numPages qs.length 10
    rw [hs]
    simp only [getPageNumber, Option.some_bind, hpi]
    exact clampPage_out _ n hrange

/-- Concrete run of the C10 theorem: the non-integer page parameter
`abc` yields page 1. -/
theorem get_page_obj_safe_C10_witness :
    (get_page_obj [] reqPageAbc 10).number = 1 :=
  (get_page_obj_safe_C10 [] reqPageAbc).2.2.2.2.1 "abc" rfl (by decide)

end Blogicum
